import Mathlib

/-!
Shallow embedding of `src/knapsack.cpp` (a genetic-algorithm solver for the
0/1 knapsack problem) and verification of its specification.

Modelling conventions:
* C++ `int` values are modelled as `Int`; `std::size_t` loop bounds as `Nat`.
* `Individual = std::vector<bool>` is modelled as `List Bool`,
  `Population = std::vector<Individual>` as `List (List Bool)`.
* The run-scoped `std::mt19937 rng` is modelled as an oracle `σ : Nat → Nat`
  together with a draw counter threaded through every operation; the draw of
  `std::uniform_int_distribution<int>(0, n-1)` is modelled as `σ k % n`
  (for `n = 0` the C++ distribution is invalid and the model returns an
  arbitrary oracle value).
* Out-of-range `operator[]` reads (undefined behaviour in C++) are totalised
  with `List.getD` / default values; out-of-range `operator[]` writes are
  modelled as failures, so `mutate`, `crossover`, `breed` and `solve` return
  `Option`.
* `std::sort` produces an unspecified sorted permutation of its input
  (the comparator gives no deterministic tie-break); `List.insertionSort`
  is used as one such sorted permutation.
-/

namespace Knapsack

/-- `struct Item { const int value; const int weight; }`. -/
structure Item where
  value : Int
  weight : Int
deriving DecidableEq, Repr

/-- `using Individual = std::vector<bool>`. -/
abbrev Individual := List Bool

/-- `using Population = std::vector<Individual>`. -/
abbrev Population := List Individual

/-- The configuration fields of `struct KnapsackSolver` (the `generation`
member and the random engine are run state, modelled explicitly). -/
structure KnapsackSolver where
  items : List Item
  capacity : Int
  popSize : Int
  maxIterations : Int
deriving DecidableEq, Repr

/-- The C++ constructor `KnapsackSolver(its, cap, pop, maxit)`: it copies the
four configuration values into the fields and performs no validation of any
kind.  The `Option` return type is the failure channel a construction-time
configuration error would use; the source constructor never fails, so the
result is always `some`. -/
def mkKnapsackSolver (its : List Item) (cap pop maxit : Int) :
    Option KnapsackSolver :=
  some ⟨its, cap, pop, maxit⟩

/-- A draw of `breedingDistribution`, which the constructor initialises as
`uniform_int_distribution<int>(0, items.size() - 1)`.  For a non-empty
catalog this is uniform over `[0, N)`; for `N = 0` the C++ distribution's
bounds are inverted (undefined behaviour) and the model yields the raw
oracle value. -/
def drawBreeding (s : KnapsackSolver) (σ : Nat → Nat) (k : Nat) : Nat :=
  σ k % s.items.length

/-- A draw of `populationDistribution`, initialised as
`uniform_int_distribution<int>(0, pop - 1)`. -/
def drawPop (s : KnapsackSolver) (σ : Nat → Nat) (k : Nat) : Nat :=
  σ k % s.popSize.toNat

/-- The accumulation loop of `KnapsackSolver::fitness`: for each catalog
index `i`, `fit += items[i].value * ind[i]` and
`weight += items[i].weight * ind[i]`.  Returns `(fit, weight)`.  A read of
`ind[i]` past the end of `ind` is totalised as `false` (contributing 0). -/
def fitnessSums : List Item → Individual → Int × Int
  | [], _ => (0, 0)
  | _ :: its, [] => fitnessSums its []
  | it :: its, b :: bs =>
    let p := fitnessSums its bs
    ((if b then it.value else 0) + p.1, (if b then it.weight else 0) + p.2)

/-- `KnapsackSolver::fitness`: the accumulated value, forced to `0` when the
accumulated weight exceeds the capacity. -/
def fitness (s : KnapsackSolver) (ind : Individual) : Int :=
  let p := fitnessSums s.items ind
  if p.2 > s.capacity then 0 else p.1

/-- The body of `KnapsackSolver::mutate` after the index draw: copy the
parent and flip the gene at `idx`.  The write `child[idx]` is out of bounds
when `idx ≥ |parent|`, which is a failure. -/
def mutate (parent : Individual) (idx : Nat) : Option Individual :=
  if h : idx < parent.length then
    some (parent.set idx (!(parent.get ⟨idx, h⟩)))
  else
    none

/-- One of the copy loops of `KnapsackSolver::crossover`: starting at
position `i`, perform `n` iterations of `child[i] = src[i]; ++i`.  The read
of `src` is totalised with `getD`; the write into `child` fails when out of
bounds. -/
def copyRange (src : Individual) : Individual → Nat → Nat → Option Individual
  | child, _, 0 => some child
  | child, i, n + 1 =>
    if i < child.length then
      copyRange src (child.set i (src.getD i false)) (i + 1) n
    else
      none

/-- The body of `KnapsackSolver::crossover` after the index draw:
`Individual child(parent1.size())` (all genes value-initialised to `false`),
then `for (i = 0; i < k; ++i) child[i] = parent1[i]` and
`for (i = k; i < parent2.size(); ++i) child[i] = parent2[i]`. -/
def crossover (parent1 parent2 : Individual) (k : Nat) : Option Individual :=
  match copyRange parent1 (List.replicate parent1.length false) 0 k with
  | none => none
  | some child => copyRange parent2 child k (parent2.length - k)

/-- The loop of `KnapsackSolver::generateIndividual` over the remaining
catalog entries: `bit = breedingDistribution(rng) % 2`; if the bit is set,
the weight is accumulated and the gene is selected unless the running weight
would exceed the capacity, in which case the loop breaks and all remaining
genes stay `false`.  Returns the genes for the processed suffix and the
updated draw counter. -/
def genIndLoop (s : KnapsackSolver) (σ : Nat → Nat) :
    List Item → Int → Nat → Individual × Nat
  | [], _, k => ([], k)
  | it :: rest, weight, k =>
    let bit := drawBreeding s σ k % 2 == 1
    if bit then
      let w := weight + it.weight
      if w > s.capacity then
        (List.replicate (rest.length + 1) false, k + 1)
      else
        let p := genIndLoop s σ rest w (k + 1)
        (true :: p.1, p.2)
    else
      let p := genIndLoop s σ rest weight (k + 1)
      (false :: p.1, p.2)

/-- `KnapsackSolver::generateIndividual`. -/
def generateIndividual (s : KnapsackSolver) (σ : Nat → Nat) (k : Nat) :
    Individual × Nat :=
  genIndLoop s σ s.items 0 k

/-- The loop of `KnapsackSolver::generateInitialPop`, producing `n`
individuals. -/
def genPopLoop (s : KnapsackSolver) (σ : Nat → Nat) :
    Nat → Nat → Population × Nat
  | 0, k => ([], k)
  | n + 1, k =>
    let p := generateIndividual s σ k
    let q := genPopLoop s σ n p.2
    (p.1 :: q.1, q.2)

/-- `KnapsackSolver::generateInitialPop`: `popSize` calls to
`generateIndividual` (none when `popSize ≤ 0`). -/
def generateInitialPop (s : KnapsackSolver) (σ : Nat → Nat) (k : Nat) :
    Population × Nat :=
  genPopLoop s σ s.popSize.toNat k

/-- The sort order of `naturalSelection`'s comparator
`fitness(lhs) > fitness(rhs)`: `a` may come before `b` exactly when
`fitness b ≤ fitness a` (descending fitness). -/
def fitGe (s : KnapsackSolver) (a b : Individual) : Prop :=
  fitness s b ≤ fitness s a

instance fitGeDecidable (s : KnapsackSolver) : DecidableRel (fitGe s) :=
  fun a b => inferInstanceAs (Decidable (fitness s b ≤ fitness s a))

/-- `KnapsackSolver::naturalSelection`: sort a copy of the pool in
descending order of fitness (`std::sort` yields an unspecified sorted
permutation; `insertionSort` is one such) and keep the first `popSize`
entries. -/
def naturalSelection (s : KnapsackSolver) (pop : Population) : Population :=
  (pop.insertionSort (fitGe s)).take s.popSize.toNat

/-- `std::vector::resize(n)` on a population: truncate to `n` elements, or
pad with value-initialised (empty) individuals up to `n` elements. -/
def resizePop (pop : Population) (n : Nat) : Population :=
  if pop.length ≤ n then pop ++ List.replicate (n - pop.length) ([] : Individual)
  else pop.take n

/-- The loop of `KnapsackSolver::breed` over the input population: for each
individual, push one mutated copy and one crossover child with
`pop[populationDistribution(rng)]` (an out-of-range partner read is
totalised as an empty individual).  Per individual the draws are: mutation
index, partner index, crossover index.  Returns the appended offspring and
the updated draw counter. -/
def breedLoop (s : KnapsackSolver) (σ : Nat → Nat) (full : Population) :
    Population → Nat → Option (Population × Nat)
  | [], k => some ([], k)
  | ind :: rest, k =>
    match mutate ind (drawBreeding s σ k) with
    | none => none
    | some m =>
      let partner := full.getD (drawPop s σ (k + 1)) []
      match crossover ind partner (drawBreeding s σ (k + 2)) with
      | none => none
      | some c =>
        match breedLoop s σ full rest (k + 3) with
        | none => none
        | some p => some (m :: c :: p.1, p.2)

/-- `KnapsackSolver::breed`: `Population newPop(pop);
newPop.resize(popSize * 3);` then for every individual of `pop`, push a
mutated copy and a crossover child. -/
def breed (s : KnapsackSolver) (σ : Nat → Nat) (pop : Population) (k : Nat) :
    Option (Population × Nat) :=
  match breedLoop s σ pop pop k with
  | none => none
  | some p => some (resizePop pop (s.popSize * 3).toNat ++ p.1, p.2)

/-- The iteration loop of `KnapsackSolver::solve`:
`nextGen = breed(generation); generation = naturalSelection(nextGen);`
repeated `n` times. -/
def solveLoop (s : KnapsackSolver) (σ : Nat → Nat) :
    Nat → Population → Nat → Option (Population × Nat)
  | 0, gen, k => some (gen, k)
  | n + 1, gen, k =>
    match breed s σ gen k with
    | none => none
    | some p => solveLoop s σ n (naturalSelection s p.1) p.2

/-- `KnapsackSolver::solve`: generate the initial population, run the
breed-then-select loop `maxIterations` times, and return `generation[0]`
(totalised as the empty individual when the final generation is empty). -/
def solve (s : KnapsackSolver) (σ : Nat → Nat) : Option Individual :=
  let p := generateInitialPop s σ 0
  match solveLoop s σ s.maxIterations.toNat p.1 p.2 with
  | none => none
  | some q => some (q.1.headD [])

/-- Specification-side sum: total value of the selected genes of an
individual. -/
def selectedValue (items : List Item) (ind : Individual) : Int :=
  ((((items.zip ind).filter fun q => q.2).map fun q => q.1.value)).sum

/-- Specification-side sum: total weight of the selected genes of an
individual. -/
def selectedWeight (items : List Item) (ind : Individual) : Int :=
  ((((items.zip ind).filter fun q => q.2).map fun q => q.1.weight)).sum

/-! Helper lemmas -/

/-- `mutate` fails on a parent of length 0: every flip index is out of
bounds. -/
theorem mutate_nil (idx : Nat) : mutate ([] : Individual) idx = none := by
  simp [mutate]

/-- `fitnessSums` over an exhausted individual accumulates nothing. -/
theorem fitnessSums_nilInd : ∀ items : List Item, fitnessSums items [] = (0, 0)
  | [] => rfl
  | _ :: its => fitnessSums_nilInd its

/-- `selectedValue` on a matched cons pair. -/
theorem selectedValue_cons (it : Item) (its : List Item) (b : Bool)
    (bs : List Bool) :
    selectedValue (it :: its) (b :: bs) =
      (if b then it.value else 0) + selectedValue its bs := by
  cases b <;> simp [selectedValue]

/-- `selectedWeight` on a matched cons pair. -/
theorem selectedWeight_cons (it : Item) (its : List Item) (b : Bool)
    (bs : List Bool) :
    selectedWeight (it :: its) (b :: bs) =
      (if b then it.weight else 0) + selectedWeight its bs := by
  cases b <;> simp [selectedWeight]

/-- The single accumulation pass of `fitness` computes exactly the
specification-side selected-value and selected-weight sums. -/
theorem fitnessSums_eq :
    ∀ (items : List Item) (ind : Individual),
      fitnessSums items ind = (selectedValue items ind, selectedWeight items ind)
  | [], ind => by simp [fitnessSums, selectedValue, selectedWeight]
  | it :: its, [] => by
    simp [fitnessSums_nilInd, selectedValue, selectedWeight]
  | it :: its, b :: bs => by
    simp only [fitnessSums, fitnessSums_eq its bs, selectedValue_cons,
      selectedWeight_cons]

/-- `selectedWeight` of an all-unselected individual is 0. -/
theorem selectedWeight_replicate_false :
    ∀ (items : List Item) (n : Nat),
      selectedWeight items (List.replicate n false) = 0
  | _, 0 => by simp [selectedWeight]
  | [], _ + 1 => by simp [selectedWeight]
  | it :: its, n + 1 => by
    simp [List.replicate_succ, selectedWeight_cons,
      selectedWeight_replicate_false its n]

/-- `selectedValue` of an all-unselected individual is 0. -/
theorem selectedValue_replicate_false :
    ∀ (items : List Item) (n : Nat),
      selectedValue items (List.replicate n false) = 0
  | _, 0 => by simp [selectedValue]
  | [], _ + 1 => by simp [selectedValue]
  | it :: its, n + 1 => by
    simp [List.replicate_succ, selectedValue_cons,
      selectedValue_replicate_false its n]

/-! Claim C1 -/

/-- C1: evaluation of `breed` at a concrete failing input.  With
`popSize = 1` and the one-individual population `[[true]]` over the catalog
`[(1, 1)]`, `breed` returns a pool of 5 individuals — the original, two
empty padding individuals inserted by `resize(popSize * 3)`, the mutant and
the crossover child — not the 3 promised by the claim. -/
theorem breed_returns_five_not_three :
    breed ⟨[⟨1, 1⟩], 1, 1, 1⟩ (fun _ => 0) [[true]] 0 =
      some ([[true], [], [], [false], [true]], 3) ∧
    ([[true], [], [], [false], [true]] : Population).length =
      5 * ([[true]] : Population).length := by
  exact ⟨rfl, rfl⟩

/-! Claim C2 -/

/-- C2: evaluation of `breed` at a concrete failing input.  Over the
catalog `[(1, 1)]` (so `N = 1`), the expanded pool produced by `breed`
contains at index 1 an individual of length 0, violating the invariant that
every individual of every population has length `N`. -/
theorem breed_pool_has_wrong_length_individual :
    (breed ⟨[⟨1, 1⟩], 1, 1, 1⟩ (fun _ => 0) [[true]] 0).map
        (fun p => ((p.1.getD 1 []) : Individual).length) = some 0 ∧
    (KnapsackSolver.mk [⟨1, 1⟩] 1 1 1).items.length = 1 := by
  exact ⟨rfl, rfl⟩

/-! Claim C3 -/

/-- C3 counterexample: with `iterationCount = 0`, `solve` returns
`generation[0]` of the unsorted initial population, which need not be the
best individual.  Concretely, over catalog `[(5, 1), (7, 1)]` with capacity
10 and `popSize = 2`, the oracle below makes the initial population
`[[false, false], [true, false]]`; `solve` returns `[false, false]`
(fitness 0) although the initial population contains `[true, false]`
(fitness 5). -/
theorem solve_zero_iterations_not_best :
    solve ⟨[⟨5, 1⟩, ⟨7, 1⟩], 10, 2, 0⟩ (fun k => if k = 2 then 1 else 0) =
      some [false, false] ∧
    (generateInitialPop ⟨[⟨5, 1⟩, ⟨7, 1⟩], 10, 2, 0⟩
        (fun k => if k = 2 then 1 else 0) 0).1 =
      [[false, false], [true, false]] ∧
    fitness ⟨[⟨5, 1⟩, ⟨7, 1⟩], 10, 2, 0⟩ [false, false] <
      fitness ⟨[⟨5, 1⟩, ⟨7, 1⟩], 10, 2, 0⟩ [true, false] := by
  exact ⟨rfl, rfl, by decide⟩

/-- C3 amended: when `iterationCount = 0`, `solve` returns the first
individual (index 0) of the initial random population, with no breeding or
selection applied. -/
theorem solve_zero_iterations_returns_first (s : KnapsackSolver)
    (σ : Nat → Nat) (h : s.maxIterations = 0) :
    solve s σ = some ((generateInitialPop s σ 0).1.headD []) := by
  simp [solve, h, solveLoop]

/-- Witness for `solve_zero_iterations_returns_first` at a concrete
solver. -/
theorem solve_zero_iterations_returns_first_witness :
    solve ⟨[⟨5, 1⟩, ⟨7, 1⟩], 10, 2, 0⟩ (fun _ => 0) =
      some ((generateInitialPop ⟨[⟨5, 1⟩, ⟨7, 1⟩], 10, 2, 0⟩
        (fun _ => 0) 0).1.headD []) :=
  solve_zero_iterations_returns_first ⟨[⟨5, 1⟩, ⟨7, 1⟩], 10, 2, 0⟩
    (fun _ => 0) rfl

/-! Claim C4 -/

/-- C4 counterexample: constructing a solver with `populationSize = 0 ≤ 0`
does not fail — the constructor performs no validation and returns a solver
with exactly the given fields. -/
theorem mkKnapsackSolver_accepts_zero_popSize :
    mkKnapsackSolver [] 1 0 0 = some ⟨[], 1, 0, 0⟩ ∧ (0 : Int) ≤ 0 := by
  exact ⟨rfl, by decide⟩

/-- C4 amended: construction never rejects any configuration — for every
catalog, capacity, population size and iteration count (including
`populationSize ≤ 0` and `iterationCount < 0`), the constructor succeeds
and produces a solver with exactly the given fields. -/
theorem mkKnapsackSolver_never_fails (its : List Item) (cap pop maxit : Int) :
    mkKnapsackSolver its cap pop maxit = some ⟨its, cap, pop, maxit⟩ := rfl

/-! Claim C5 -/

/-- C5: with an empty catalog (`N = 0`), `popSize = 1` and one iteration,
the run is not well-defined for any random choice sequence: `mutate` must
flip a gene of a length-0 individual, an out-of-bounds write (and the index
distribution `[0, N - 1] = [0, -1]` is empty), so `solve` fails instead of
returning the empty selection. -/
theorem solve_empty_catalog_fails (σ : Nat → Nat) :
    solve ⟨[], 0, 1, 1⟩ σ = none := by
  simp [solve, generateInitialPop, genPopLoop, generateIndividual,
    genIndLoop, solveLoop, breed, breedLoop, mutate_nil]

/-! Claim C6 -/

/-- C6: for every individual of catalog length, `fitness` returns the sum
of the values of the selected genes when the selected weight is within
capacity, returns exactly 0 when the selected weight exceeds capacity, and
in particular an all-unselected individual has fitness 0. -/
theorem fitness_characterisation (s : KnapsackSolver) (ind : Individual)
    (h : ind.length = s.items.length) :
    (selectedWeight s.items ind ≤ s.capacity →
      fitness s ind = selectedValue s.items ind) ∧
    (s.capacity < selectedWeight s.items ind → fitness s ind = 0) ∧
    fitness s (List.replicate s.items.length false) = 0 := by
  refine ⟨?_, ?_, ?_⟩
  · intro hle
    simp [fitness, fitnessSums_eq, not_lt.mpr hle]
  · intro hgt
    simp [fitness, fitnessSums_eq, hgt]
  · simp [fitness, fitnessSums_eq, selectedWeight_replicate_false]
    intro
    exact selectedValue_replicate_false s.items _

/-- Witness for `fitness_characterisation` at a concrete overweight
individual: one item of value 5 and weight 1 with capacity 0. -/
theorem fitness_characterisation_witness :
    fitness ⟨[⟨5, 1⟩], 0, 1, 0⟩ [true] = 0 :=
  (fitness_characterisation ⟨[⟨5, 1⟩], 0, 1, 0⟩ [true] rfl).2.1 (by decide)

/-! Claim C7 -/

/-- C7: whenever the pool holds at least `popSize` individuals,
`naturalSelection` returns exactly `popSize` individuals, in non-increasing
fitness order, and every returned individual's fitness is at least every
discarded individual's fitness. -/
theorem naturalSelection_spec (s : KnapsackSolver) (pool : Population)
    (h : s.popSize.toNat ≤ pool.length) :
    (naturalSelection s pool).length = s.popSize.toNat ∧
    List.Pairwise (fitGe s) (naturalSelection s pool) ∧
    ∀ a ∈ naturalSelection s pool,
      ∀ b ∈ (pool.insertionSort (fitGe s)).drop s.popSize.toNat,
        fitness s b ≤ fitness s a := by
  have hperm := List.perm_insertionSort (fitGe s) pool
  have hlen : (pool.insertionSort (fitGe s)).length = pool.length :=
    hperm.length_eq
  haveI : IsTotal Individual (fitGe s) := ⟨fun a b => le_total _ _⟩
  haveI : IsTrans Individual (fitGe s) :=
    ⟨fun _ _ _ hab hbc => le_trans hbc hab⟩
  have hsorted : List.Pairwise (fitGe s) (pool.insertionSort (fitGe s)) :=
    List.sorted_insertionSort (fitGe s) pool
  refine ⟨?_, ?_, ?_⟩
  · simp [naturalSelection, hlen, h, Nat.min_eq_left]
  · exact List.Pairwise.sublist (List.take_sublist _ _) hsorted
  · have h2 : List.Pairwise (fitGe s)
        ((pool.insertionSort (fitGe s)).take s.popSize.toNat ++
          (pool.insertionSort (fitGe s)).drop s.popSize.toNat) := by
      rw [List.take_append_drop]
      exact hsorted
    exact fun a ha b hb => (List.pairwise_append.mp h2).2.2 a ha b hb

/-- Witness for `naturalSelection_spec` at a concrete solver and pool. -/
theorem naturalSelection_spec_witness :
    (naturalSelection ⟨[⟨1, 1⟩], 1, 1, 0⟩ [[false], [true]]).length =
      (KnapsackSolver.mk [⟨1, 1⟩] 1 1 0).popSize.toNat ∧
    List.Pairwise (fitGe ⟨[⟨1, 1⟩], 1, 1, 0⟩)
      (naturalSelection ⟨[⟨1, 1⟩], 1, 1, 0⟩ [[false], [true]]) ∧
    ∀ a ∈ naturalSelection ⟨[⟨1, 1⟩], 1, 1, 0⟩ [[false], [true]],
      ∀ b ∈ (([[false], [true]] : Population).insertionSort
          (fitGe ⟨[⟨1, 1⟩], 1, 1, 0⟩)).drop
          (KnapsackSolver.mk [⟨1, 1⟩] 1 1 0).popSize.toNat,
        fitness ⟨[⟨1, 1⟩], 1, 1, 0⟩ b ≤ fitness ⟨[⟨1, 1⟩], 1, 1, 0⟩ a :=
  naturalSelection_spec ⟨[⟨1, 1⟩], 1, 1, 0⟩ [[false], [true]] (by decide)

/-! Claim C8 -/

/-- Characterisation of a crossover copy loop: when all written positions
are in bounds it succeeds, preserves the length, and overwrites exactly the
positions in `[i, i + n)` with the source genes. -/
theorem copyRange_spec (src : Individual) :
    ∀ (n : Nat) (child : Individual) (i : Nat), i + n ≤ child.length →
      ∃ res, copyRange src child i n = some res ∧
        res.length = child.length ∧
        ∀ j : Nat, res[j]? =
          if i ≤ j ∧ j < i + n then some (src.getD j false) else child[j]?
  | 0, child, i, _ =>
    ⟨child, rfl, rfl, fun j => by rw [if_neg (by omega)]⟩
  | n + 1, child, i, h => by
    have hi : i < child.length := by omega
    obtain ⟨res, heq, hlen, hget⟩ :=
      copyRange_spec src n (child.set i (src.getD i false)) (i + 1)
        (by rw [List.length_set]; omega)
    refine ⟨res, ?_, ?_, ?_⟩
    · rw [copyRange, if_pos hi, heq]
    · rw [hlen, List.length_set]
    · intro j
      rw [hget j]
      by_cases hji : j = i
      · subst hji
        rw [if_neg (by omega), if_pos (by omega),
          List.getElem?_set_self hi]
      · by_cases hr : i ≤ j ∧ j < i + (n + 1)
        · have hr' : i + 1 ≤ j ∧ j < i + 1 + n := by omega
          rw [if_pos hr', if_pos hr]
        · have hr' : ¬(i + 1 ≤ j ∧ j < i + 1 + n) := by omega
          rw [if_neg hr', if_neg hr, List.getElem?_set_ne (Ne.symm hji)]

/-- The crossover child is the first parent's genes below the crossover
index followed by the second parent's genes from the index on. -/
theorem crossover_eq (p1 p2 : Individual) (k : Nat)
    (hlen : p2.length = p1.length) (hk : k ≤ p1.length) :
    crossover p1 p2 k = some (p1.take k ++ p2.drop k) := by
  obtain ⟨c1, hc1, hc1len, hc1get⟩ :=
    copyRange_spec p1 k (List.replicate p1.length false) 0
      (by rw [List.length_replicate]; omega)
  rw [List.length_replicate] at hc1len
  obtain ⟨res, hres, hreslen, hresget⟩ :=
    copyRange_spec p2 (p2.length - k) c1 k (by omega)
  rw [crossover, hc1]
  show copyRange p2 c1 k (p2.length - k) = some (p1.take k ++ p2.drop k)
  rw [hres]
  congr 1
  apply List.ext_getElem?
  intro j
  rw [hresget j, hc1get j]
  by_cases h1 : j < k
  · rw [if_neg (by omega), if_pos (by omega),
      List.getElem?_append_left (by rw [List.length_take]; omega),
      List.getElem?_take_of_lt h1, List.getD_eq_getElem?_getD,
      List.getElem?_eq_getElem (by omega)]
    rfl
  · by_cases h2 : j < p1.length
    · rw [if_pos (by omega),
        List.getElem?_append_right (by rw [List.length_take]; omega),
        List.length_take, List.getElem?_drop, List.getD_eq_getElem?_getD,
        Nat.min_eq_left hk]
      have hj : k + (j - k) = j := by omega
      rw [hj, List.getElem?_eq_getElem (by omega)]
      rfl
    · rw [if_neg (by omega), if_neg (by omega), List.getElem?_replicate,
        if_neg (by omega)]
      rw [List.getElem?_eq_none
        (by rw [List.length_append, List.length_take, List.length_drop]; omega)]

/-- C8: for parents of equal length `N` and crossover index `k < N`, the
child takes genes `[0, k)` from parent 1 and `[k, N)` from parent 2; in
particular crossing a parent with itself reproduces the parent exactly. -/
theorem crossover_boundary (p1 p2 : Individual) (N k : Nat)
    (h1 : p1.length = N) (h2 : p2.length = N) (hk : k < N) :
    crossover p1 p2 k = some (p1.take k ++ p2.drop k) ∧
    crossover p1 p1 k = some p1 := by
  constructor
  · exact crossover_eq p1 p2 k (h2.trans h1.symm) (by omega)
  · have h := crossover_eq p1 p1 k rfl (by omega)
    rwa [List.take_append_drop] at h

/-- Witness for `crossover_boundary` at concrete parents of length 2 with
crossover index 1. -/
theorem crossover_boundary_witness :
    crossover [true, false] [false, true] 1 =
      some (([true, false] : Individual).take 1 ++
        ([false, true] : Individual).drop 1) ∧
    crossover [true, false] [true, false] 1 = some [true, false] :=
  crossover_boundary [true, false] [false, true] 2 1 rfl rfl (by decide)

/-! Claim C9 -/

/-- C9: elitist non-degradation of one iteration of `solve`'s loop body
(`nextGen = breed(generation); generation = naturalSelection(nextGen)`).
For every solver with `popSize ≥ 1`, every random choice sequence and every
non-empty current generation, when `breed` succeeds the fitness of
`generation[0]` never decreases across the iteration: the previous head is
retained in the expanded pool and selection starts with a pool maximum. -/
theorem breed_best_survives (s : KnapsackSolver) (σ : Nat → Nat)
    (gen : Population) (k : Nat) (pool : Population) (k2 : Nat)
    (hpop : 1 ≤ s.popSize) (hgen : gen ≠ [])
    (hb : breed s σ gen k = some (pool, k2)) :
    fitness s (gen.headD []) ≤
      fitness s ((naturalSelection s pool).headD []) := by
  rw [breed] at hb
  split at hb
  · exact absurd hb (by simp)
  case _ p hloop =>
    have hpool : resizePop gen (s.popSize * 3).toNat ++ p.1 = pool :=
      congrArg Prod.fst (Option.some.inj hb)
    subst hpool
    obtain ⟨g, rest, rfl⟩ := List.exists_cons_of_ne_nil hgen
    have hT : 1 ≤ (s.popSize * 3).toNat := by omega
    have hmem : g ∈ resizePop (g :: rest) (s.popSize * 3).toNat ++ p.1 := by
      apply List.mem_append_left
      rw [resizePop]
      split
      · exact List.mem_append_left _ (List.mem_cons_self g rest)
      · obtain ⟨m, hm⟩ : ∃ m, (s.popSize * 3).toNat = m + 1 :=
          ⟨(s.popSize * 3).toNat - 1, by omega⟩
        rw [hm, List.take_succ_cons]
        exact List.mem_cons_self g _
    haveI : IsTotal Individual (fitGe s) := ⟨fun a b => le_total _ _⟩
    haveI : IsTrans Individual (fitGe s) :=
      ⟨fun _ _ _ hab hbc => le_trans hbc hab⟩
    set pool := resizePop (g :: rest) (s.popSize * 3).toNat ++ p.1 with hpooldef
    have hsorted : List.Pairwise (fitGe s) (pool.insertionSort (fitGe s)) :=
      List.sorted_insertionSort (fitGe s) pool
    have hmemst : g ∈ pool.insertionSort (fitGe s) :=
      (List.mem_insertionSort (fitGe s)).mpr hmem
    obtain ⟨h0, t0, hst⟩ :=
      List.exists_cons_of_ne_nil (List.ne_nil_of_mem hmemst)
    have hle : fitness s g ≤ fitness s h0 := by
      rcases List.mem_cons.mp (hst ▸ hmemst) with h | h
      · exact le_of_eq (congrArg (fitness s) h)
      · exact (List.pairwise_cons.mp (hst ▸ hsorted)).1 g h
    obtain ⟨m, hm⟩ : ∃ m, s.popSize.toNat = m + 1 :=
      ⟨s.popSize.toNat - 1, by omega⟩
    have hsel : naturalSelection s pool = h0 :: t0.take m := by
      rw [naturalSelection, hst, hm, List.take_succ_cons]
    simpa [hsel] using hle

/-- Witness for `breed_best_survives` at a concrete solver, generation and
successful breed step. -/
theorem breed_best_survives_witness :
    fitness ⟨[⟨1, 1⟩], 1, 1, 1⟩ (([[true]] : Population).headD []) ≤
      fitness ⟨[⟨1, 1⟩], 1, 1, 1⟩
        ((naturalSelection ⟨[⟨1, 1⟩], 1, 1, 1⟩
          [[true], [], [], [false], [true]]).headD []) :=
  breed_best_survives ⟨[⟨1, 1⟩], 1, 1, 1⟩ (fun _ => 0) [[true]] 0
    [[true], [], [], [false], [true]] 3 (by decide) (by decide) (by decide)

/-! Claim C10 -/

/-- Invariant of the `generateIndividual` loop: if the running weight is
within capacity, so is the running weight plus the selected weight of the
genes the loop still produces — a gene is only selected when the weight
including it stays within capacity, and the loop breaks otherwise. -/
theorem genIndLoop_feasible (s : KnapsackSolver) (σ : Nat → Nat) :
    ∀ (items : List Item) (w : Int) (k : Nat), w ≤ s.capacity →
      w + selectedWeight items (genIndLoop s σ items w k).1 ≤ s.capacity
  | [], w, k, hw => by simpa [genIndLoop, selectedWeight] using hw
  | it :: rest, w, k, hw => by
    rw [genIndLoop]
    by_cases hbit : (drawBreeding s σ k % 2 == 1) = true
    · rw [if_pos hbit]
      by_cases hover : w + it.weight > s.capacity
      · rw [if_pos hover]
        simpa [selectedWeight_replicate_false] using hw
      · rw [if_neg hover]
        have ih := genIndLoop_feasible s σ rest (w + it.weight) (k + 1)
          (not_lt.mp hover)
        simp only [selectedWeight_cons, if_true, ite_true]
        omega
    · rw [if_neg hbit]
      have ih := genIndLoop_feasible s σ rest w (k + 1) hw
      simp only [selectedWeight_cons, if_false, ite_false, Bool.false_eq_true]
      omega

/-- Every individual of the initial population is produced by
`generateIndividual` with running weight 0, hence feasible. -/
theorem genPopLoop_feasible (s : KnapsackSolver) (σ : Nat → Nat)
    (hc : 0 ≤ s.capacity) :
    ∀ (n k : Nat), ∀ ind ∈ (genPopLoop s σ n k).1,
      selectedWeight s.items ind ≤ s.capacity
  | 0, _, _, h => by simp [genPopLoop] at h
  | n + 1, k, ind, h => by
    rw [genPopLoop] at h
    rcases List.mem_cons.mp h with h1 | h1
    · subst h1
      simpa using genIndLoop_feasible s σ s.items 0 k hc
    · exact genPopLoop_feasible s σ hc n (generateIndividual s σ k).2 ind h1

/-- C10: for a catalog with non-negative weights and a non-negative
capacity, every individual produced by `generateIndividual` is feasible
(selected weight within capacity), and hence so is the entire initial
population. -/
theorem generateIndividual_feasible (s : KnapsackSolver) (σ : Nat → Nat)
    (k : Nat) (hw : ∀ it ∈ s.items, 0 ≤ it.weight) (hc : 0 ≤ s.capacity) :
    selectedWeight s.items (generateIndividual s σ k).1 ≤ s.capacity ∧
    ∀ ind ∈ (generateInitialPop s σ k).1,
      selectedWeight s.items ind ≤ s.capacity := by
  constructor
  · simpa using genIndLoop_feasible s σ s.items 0 k hc
  · exact fun ind h => genPopLoop_feasible s σ hc s.popSize.toNat k ind h

/-- Witness for `generateIndividual_feasible` at a concrete solver. -/
theorem generateIndividual_feasible_witness :
    selectedWeight [⟨1, 1⟩]
      (generateIndividual ⟨[⟨1, 1⟩], 1, 1, 0⟩ (fun _ => 0) 0).1 ≤ 1 ∧
    ∀ ind ∈ (generateInitialPop ⟨[⟨1, 1⟩], 1, 1, 0⟩ (fun _ => 0) 0).1,
      selectedWeight [⟨1, 1⟩] ind ≤ 1 :=
  generateIndividual_feasible ⟨[⟨1, 1⟩], 1, 1, 0⟩ (fun _ => 0) 0
    (by decide) (by decide)

end Knapsack
